import Mathlib

/-!
Verification development for the chat-log statistics generator
(`src/main.py`).  The Python program is shallowly embedded: lines are
`List Char`, Python dicts / `collections.Counter` are association lists
kept in insertion order, exceptions become an explicit `PyError` in
`Except`, and the one use of `random.randint` is threaded in as an
explicit `draw : Nat` argument.  Only ASCII input is modelled (the logs
the program consumes are ASCII-framed; message bodies may hold any
characters).
-/

/-- Python `str.split()` whitespace (ASCII part). -/
def isPySpace (c : Char) : Bool :=
  c == ' ' || c == '\t' || c == '\n' || c == '\r' || c == '\x0b' || c == '\x0c'

/-- The check `'0' <= c and c <= '9'` from `ChatMessage.parse`. -/
def isAsciiDigit (c : Char) : Bool :=
  decide ('0' ≤ c) && decide (c ≤ '9')

/-- Helper for `pySplitWS`: accumulates the current token (reversed). -/
def pySplitWSAux : List Char → List Char → List (List Char)
  | [], acc => if acc.isEmpty then [] else [acc.reverse]
  | c :: rest, acc =>
    if isPySpace c then
      if acc.isEmpty then pySplitWSAux rest []
      else acc.reverse :: pySplitWSAux rest []
    else pySplitWSAux rest (c :: acc)

/-- Python `line.split()`: split on runs of whitespace, dropping empty tokens. -/
def pySplitWS (cs : List Char) : List (List Char) := pySplitWSAux cs []

/-- Helper for `splitColon`. -/
def splitColonAux : List Char → List Char → List (List Char)
  | [], acc => [acc.reverse]
  | c :: rest, acc =>
    if c = ':' then acc.reverse :: splitColonAux rest []
    else splitColonAux rest (c :: acc)

/-- Python `s.split(":")`: split on every colon, keeping empty pieces. -/
def splitColon (cs : List Char) : List (List Char) := splitColonAux cs []

/-- Strip leading and trailing whitespace (Python `int()` tolerates it). -/
def pyStrip (cs : List Char) : List Char :=
  ((cs.dropWhile isPySpace).reverse.dropWhile isPySpace).reverse

/-- Digit-string validity for Python `int()`: non-empty digits, with single
underscores allowed only between digits. -/
def digitsOk : List Char → Bool
  | [] => false
  | [c] => isAsciiDigit c
  | c :: c2 :: rest =>
    if isAsciiDigit c then
      if c2 = '_' then
        match rest with
        | [] => false
        | _ :: _ => digitsOk rest
      else digitsOk (c2 :: rest)
    else false

def digitVal (c : Char) : Nat := c.toNat - '0'.toNat

/-- Value of a digit string, skipping the underscore separators. -/
def digitsValue : List Char → Nat → Nat
  | [], acc => acc
  | c :: rest, acc =>
    if c = '_' then digitsValue rest acc
    else digitsValue rest (acc * 10 + digitVal c)

/-- Python `int(s)` on ASCII input: `some n`, or `none` for the `ValueError`
cases (empty, stray signs, non-digits, misplaced underscores). -/
def pyInt? (cs : List Char) : Option Int :=
  match pyStrip cs with
  | '+' :: rest => if digitsOk rest then some (Int.ofNat (digitsValue rest 0)) else none
  | '-' :: rest => if digitsOk rest then some (-(Int.ofNat (digitsValue rest 0))) else none
  | t => if digitsOk t then some (Int.ofNat (digitsValue t 0)) else none

/-- Exceptions that `ChatMessage.parse` can raise, by Python class. -/
inductive PyError where
  | valueError
  | typeError
  | indexError
  | runtimeError
deriving DecidableEq

instance {ε α : Type} [DecidableEq ε] [DecidableEq α] : DecidableEq (Except ε α) :=
  fun a b =>
    match a, b with
    | .ok x, .ok y =>
      if h : x = y then isTrue (by rw [h])
      else isFalse (fun he => h (Except.ok.inj he))
    | .error e, .error f =>
      if h : e = f then isTrue (by rw [h])
      else isFalse (fun he => h (Except.error.inj he))
    | .ok _, .error _ => isFalse (fun h => Except.noConfusion h)
    | .error _, .ok _ => isFalse (fun h => Except.noConfusion h)

/-- `map(int, contents[0].split(":"))`: all conversions succeed or the first
failure raises `ValueError`. -/
def mapIntOpt : List (List Char) → Option (List Int)
  | [] => some []
  | c :: rest =>
    match pyInt? c with
    | none => none
    | some v =>
      match mapIntOpt rest with
      | none => none
      | some vs => some (v :: vs)

/-- `datetime.time` value (the program only ever reads `.hour`). -/
structure PyTime where
  hour : Nat
  minute : Nat
  second : Nat
  microsecond : Nat
deriving DecidableEq

/-- `datetime.time(h, m, s, us)`: range validation, `ValueError` on failure. -/
def mkTime (h m s us : Int) : Except PyError PyTime :=
  if 0 ≤ h ∧ h ≤ 23 then
    if 0 ≤ m ∧ m ≤ 59 then
      if 0 ≤ s ∧ s ≤ 59 then
        if 0 ≤ us ∧ us ≤ 999999 then
          .ok ⟨h.toNat, m.toNat, s.toNat, us.toNat⟩
        else .error .valueError
      else .error .valueError
    else .error .valueError
  else .error .valueError

/-- `datetime.time(*args)`: 0–4 positional arguments, otherwise `TypeError`. -/
def pyTimeCtor : List Int → Except PyError PyTime
  | [] => mkTime 0 0 0 0
  | [h] => mkTime h 0 0 0
  | [h, m] => mkTime h m 0 0
  | [h, m, s] => mkTime h m s 0
  | [h, m, s, us] => mkTime h m s us
  | _ => .error .typeError

/-- `datetime.time(*map(int, tok.split(":")))` from `ChatMessage.parse`. -/
def pyTimeOfToken (tok : List Char) : Except PyError PyTime :=
  match mapIntOpt (splitColon tok) with
  | none => .error .valueError
  | some vals => pyTimeCtor vals

def MessageType.REGULAR : Nat := 0
def MessageType.ACTION : Nat := 1
def MessageType.MODE_CHANGE : Nat := 2

/-- Parsed chat line (`ChatMessage` dataclass). -/
structure ChatMessage where
  time : PyTime
  username : List Char
  text : List Char
  line_type : Nat
deriving DecidableEq

/-- The guard `len(line) < 7 or not ('0' <= line[0] and line[0] <= '9')`. -/
def preCheckRejects (line : List Char) : Bool :=
  decide (line.length < 7) || !(isAsciiDigit (line.headD ' '))

/-- Python `s.rstrip(c)`: drop all trailing occurrences of `c`. -/
def pyRstrip (cs : List Char) (c : Char) : List Char :=
  (cs.reverse.dropWhile (fun c2 => c2 == c)).reverse

/-- Python `" ".join(tokens)`. -/
def joinSpace (tokens : List (List Char)) : List Char :=
  List.intercalate [' '] tokens

/-- `ChatMessage.parse`: `.ok none` is the silent reject (returns `None`),
`.ok (some m)` a parsed message, `.error e` an uncaught Python exception. -/
def ChatMessage.parse (line : List Char) : Except PyError (Option ChatMessage) :=
  if preCheckRejects line then .ok none
  else
    match pySplitWS line with
    | [] => .error .indexError
    | t0 :: tail =>
      match pyTimeOfToken t0 with
      | .error e => .error e
      | .ok tm =>
        match tail with
        | [] => .error .indexError
        | t1 :: _ =>
          match t1 with
          | [] => .error .indexError
          | d :: _ =>
            let contents := t0 :: tail
            if d = '*' then
              match contents.get? 2 with
              | none => .error .indexError
              | some t2 =>
                .ok (some ⟨tm, t2, joinSpace (contents.drop 3), MessageType.ACTION⟩)
            else if d = '<' then
              match contents.get? 2 with
              | none => .error .indexError
              | some t2 =>
                .ok (some ⟨tm, pyRstrip t2 '>', joinSpace (contents.drop 3), MessageType.REGULAR⟩)
            else if d = '-' then
              match contents.get? 4 with
              | none => .error .indexError
              | some t4 =>
                .ok (some ⟨tm, pyRstrip t4 ']', [], MessageType.MODE_CHANGE⟩)
            else .error .runtimeError

/-- One character of the repetition group in `URLS_PATTERN`
`(http[s]?://(?:[a-zA-Z]|[0-9]|[$-_@.&+]|[!*\(\),]|(?:%[0-9a-fA-F][0-9a-fA-F]))+)`.
`[$-_@.&+]` is the ASCII range `'$'`–`'_'` (which already contains
`@ . & +` and `%`, so the percent-escape alternative adds nothing). -/
def urlBodyChar (c : Char) : Bool :=
  (decide ('a' ≤ c) && decide (c ≤ 'z')) ||
  (decide ('A' ≤ c) && decide (c ≤ 'Z')) ||
  (decide ('0' ≤ c) && decide (c ≤ '9')) ||
  (decide ('$' ≤ c) && decide (c ≤ '_')) ||
  c == '!' || c == '*' || c == '(' || c == ')' || c == ','

/-- Attempt to match `URLS_PATTERN` anchored at the head of `cs`: the scheme
literal, then a maximal non-empty run of `urlBodyChar` (the regex `+` is
greedy and nothing follows it).  Returns the match and the rest of the text. -/
def matchUrlAt (cs : List Char) : Option (List Char × List Char) :=
  if cs.take 8 = "https://".data then
    let rest := cs.drop 8
    let run := rest.takeWhile urlBodyChar
    if run.isEmpty then none
    else some ("https://".data ++ run, rest.drop run.length)
  else if cs.take 7 = "http://".data then
    let rest := cs.drop 7
    let run := rest.takeWhile urlBodyChar
    if run.isEmpty then none
    else some ("http://".data ++ run, rest.drop run.length)
  else none

/-- `re.findall` scan: try each start position left to right, emit
non-overlapping matches, resume right after each match.  Every step consumes
at least one character, so `fuel = cs.length` (see `findAll`) never runs out. -/
def findAllGo : Nat → List Char → List (List Char)
  | _, [] => []
  | 0, _ :: _ => []
  | fuel + 1, c :: rest =>
    match matchUrlAt (c :: rest) with
    | some (m, after) => m :: findAllGo fuel after
    | none => findAllGo fuel rest

/-- `URLS_PATTERN.findall(text)`. -/
def findAll (cs : List Char) : List (List Char) := findAllGo cs.length cs

/-- `ChatMessage.parse_urls`. -/
def ChatMessage.parse_urls (m : ChatMessage) : List (List Char) :=
  findAll m.text

/-- `cs` has `"http"` as a (contiguous) substring. -/
def hasHttp : List Char → Bool
  | [] => false
  | c :: rest => decide ((c :: rest).take 4 = "http".data) || hasHttp rest

/-- Python dict lookup `d.get(k)` on an insertion-ordered association list. -/
def dGet? {α β : Type} [DecidableEq α] : List (α × β) → α → Option β
  | [], _ => none
  | (k2, v) :: rest, k => if k2 = k then some v else dGet? rest k

/-- Python dict store `d[k] = v`: update in place, or append a new key. -/
def dSet {α β : Type} [DecidableEq α] : List (α × β) → α → β → List (α × β)
  | [], k, v => [(k, v)]
  | (k2, w) :: rest, k, v =>
    if k2 = k then (k2, v) :: rest else (k2, w) :: dSet rest k v

/-- `collections.Counter` read: missing keys count 0. -/
def cGet {α : Type} [DecidableEq α] (c : List (α × Nat)) (k : α) : Nat :=
  (dGet? c k).getD 0

/-- `counter[k] += 1`. -/
def cBump {α : Type} [DecidableEq α] (c : List (α × Nat)) (k : α) : List (α × Nat) :=
  dSet c k (cGet c k + 1)

/-- `ReservoirSampler`: `storage` is `self._storage`, `counter` is
`self._counter`. -/
structure ReservoirSampler where
  storage : List (List Char × List Char)
  counter : List (List Char × Nat)
deriving DecidableEq

/-- `ReservoirSampler.consider(k, v)`.  `draw` is the value
`random.randint(1, curr_idx)` would return (only consulted when the key is
already stored). -/
def ReservoirSampler.consider (st : ReservoirSampler) (k v : List Char)
    (draw : Nat) : ReservoirSampler :=
  let counter2 := cBump st.counter k
  match dGet? st.storage k with
  | none => { storage := dSet st.storage k v, counter := counter2 }
  | some _ =>
    if draw = 1 then { storage := dSet st.storage k v, counter := counter2 }
    else { storage := st.storage, counter := counter2 }

/-- `ReservoirSampler.get(k)`: `None` when the key was never observed. -/
def ReservoirSampler.get (st : ReservoirSampler) (k : List Char) : Option (List Char) :=
  dGet? st.storage k

/-- `ReservoirSampler()`. -/
def emptySampler : ReservoirSampler := ⟨[], []⟩

/-- Run a sequence of `consider` calls: each entry is `(key, value, draw)`. -/
def runConsiders (st : ReservoirSampler) :
    List (List Char × List Char × Nat) → ReservoirSampler
  | [] => st
  | (k, v, d) :: rest => runConsiders (st.consider k v d) rest

/-- The values observed under key `k`, in order. -/
def consideredValues (k : List Char)
    (ops : List (List Char × List Char × Nat)) : List (List Char) :=
  (ops.filter (fun op => op.1 = k)).map (fun op => op.2.1)

/-- The mutable statistics owned by `Main` (its `__init__` counters). -/
structure MainState where
  user_messages : List (List Char × Nat)
  user_question : List (List Char × Nat)
  user_exclamation : List (List Char × Nat)
  user_actions : List (List Char × Nat)
  user_givemodes : List (List Char × Nat)
  cache_user_messages : ReservoirSampler
  activity_graph : List Nat
  url_count : List (List Char × Nat)
  last_url_usage : List (List Char × List Char)
deriving DecidableEq

/-- The counters as `Main.__init__` leaves them. -/
def MainState.init : MainState :=
  { user_messages := []
    user_question := []
    user_exclamation := []
    user_actions := []
    user_givemodes := []
    cache_user_messages := emptySampler
    activity_graph := List.replicate 24 0
    url_count := []
    last_url_usage := [] }

/-- `self.activity_graph[h] += 1`. -/
def graphBump (g : List Nat) (h : Nat) : List Nat :=
  g.set h (g.getD h 0 + 1)

/-- Body of the URL loop in `Main.one_line`:
`self.url_count[url] += 1; self.last_url_usage[url] = u`. -/
def urlStep (u : List Char) (st : MainState) (url : List Char) : MainState :=
  { st with
    url_count := cBump st.url_count url
    last_url_usage := dSet st.last_url_usage url u }

/-- Body of the `case MessageType.REGULAR | MessageType.ACTION` branch of
`Main.one_line`: histogram, message counter, action counter, reservoir
sampler, URL loop, exclamation and question counters, in source order. -/
def processMessage (s : MainState) (m : ChatMessage) (draw : Nat) : MainState :=
  let u := m.username
  let s1 := { s with
    activity_graph := graphBump s.activity_graph m.time.hour
    user_messages := cBump s.user_messages u }
  let s2 :=
    if m.line_type = MessageType.ACTION then
      { s1 with user_actions := cBump s1.user_actions u }
    else s1
  let s3 := { s2 with
    cache_user_messages := s2.cache_user_messages.consider u m.text draw }
  let s4 := (m.parse_urls).foldl (urlStep u) s3
  let s5 :=
    if m.text.contains '!' then
      { s4 with user_exclamation := cBump s4.user_exclamation u }
    else s4
  let s6 :=
    if m.text.contains '?' then
      { s5 with user_question := cBump s5.user_question u }
    else s5
  s6

/-- `Main.one_line`.  `draw` stands in for the single possible
`random.randint` call of the reservoir sampler on this line. -/
def MainState.one_line (s : MainState) (line : List Char) (draw : Nat) :
    Except PyError MainState :=
  match ChatMessage.parse line with
  | .error e => .error e
  | .ok none => .ok s
  | .ok (some m) =>
    if m.line_type = MessageType.MODE_CHANGE then
      .ok { s with user_givemodes := cBump s.user_givemodes m.username }
    else if m.line_type = MessageType.REGULAR ∨ m.line_type = MessageType.ACTION then
      .ok (processMessage s m draw)
    else .ok s

/-- Feed a stream of `(line, draw)` pairs through `Main.one_line` in order;
an uncaught exception aborts the run. -/
def MainState.runLines (s : MainState) :
    List (List Char × Nat) → Except PyError MainState
  | [] => .ok s
  | (line, d) :: rest =>
    match s.one_line line d with
    | .error e => .error e
    | .ok s2 => MainState.runLines s2 rest

/-- Python `int(x)` on an `int` is the identity. -/
def py_int (n : Nat) : Nat := n

/-- The "graph percentage calculation" block of `Main.save_page`: sum the
buckets, divide by `240.0` (the quotient `_pct` is never read again), then
overwrite each bucket with `int(bucket)`. -/
def save_page_graph (g : List Nat) : List Nat :=
  let total : Nat := g.foldl (fun acc i => acc + i) 0
  let _pct : Rat := (total : Rat) / 240
  (List.range 24).foldl (fun acc i => acc.set i (py_int (acc.getD i 0))) g

/-- Stable descending insertion by count: the order `sorted(..., reverse=True)`
(and hence `Counter.most_common`) produces. -/
def insertByCountDesc (x : List Char × Nat) :
    List (List Char × Nat) → List (List Char × Nat)
  | [] => [x]
  | y :: rest =>
    if x.2 ≤ y.2 then y :: insertByCountDesc x rest else x :: y :: rest

/-- `Counter.most_common()`: entries sorted by count descending, ties kept in
insertion order. -/
def mostCommon (c : List (List Char × Nat)) : List (List Char × Nat) :=
  c.foldl (fun acc x => insertByCountDesc x acc) []

/-- `users_messages_desc` in `Main.save_page`. -/
def usersMessagesDesc (s : MainState) : List (List Char × Nat) :=
  mostCommon s.user_messages

/-- `top25 = users_messages_desc[:min(25, len(...))]`. -/
def top25 (s : MainState) : List (List Char × Nat) :=
  (usersMessagesDesc s).take 25

/-- Whether an `Except` holds a value (no exception was raised). -/
def exceptIsOk {ε α : Type} : Except ε α → Bool
  | .ok _ => true
  | .error _ => false

/-- Claim-side predicate (C2): the first whitespace token has a
colon-separated component that is non-numeric, or an hour outside 0–23, or a
minute/second outside 0–59. -/
def timestampTokenBad (tok : List Char) : Prop :=
  (∃ c ∈ splitColon tok, pyInt? c = none) ∨
  (∃ vals, mapIntOpt (splitColon tok) = some vals ∧
    ((∃ h, vals.get? 0 = some h ∧ ¬(0 ≤ h ∧ h ≤ 23)) ∨
     (∃ m, vals.get? 1 = some m ∧ ¬(0 ≤ m ∧ m ≤ 59)) ∨
     (∃ s, vals.get? 2 = some s ∧ ¬(0 ≤ s ∧ s ≤ 59))))

/-- The three lines of the spec's end-to-end scenario, with draw values for
the (never-consulted) random calls. -/
def c1Lines (d1 d2 d3 : Nat) : List (List Char × Nat) :=
  [("10:00:01 <nick1> hello? world!".data, d1),
   ("10:15:00 * nick1 waves".data, d2),
   ("11:00:00 -!- mode/#c [+o nick2] by Bot".data, d3)]

/-- Invariant (C10): every author present in `user_messages` has a stored
reservoir sample. -/
def samplerCoversMessages (s : MainState) : Prop :=
  ∀ kn ∈ s.user_messages, (s.cache_user_messages.get kn.1).isSome = true

/-- The state produced by feeding one action line to the initial state. -/
def c10State : MainState :=
  { user_messages := [("nick1".data, 1)]
    user_question := []
    user_exclamation := []
    user_actions := [("nick1".data, 1)]
    user_givemodes := []
    cache_user_messages := ⟨[("nick1".data, "hi".data)], [("nick1".data, 1)]⟩
    activity_graph := [0, 0, 0, 0, 0, 0, 0, 0, 0, 0, 1, 0,
                       0, 0, 0, 0, 0, 0, 0, 0, 0, 0, 0, 0]
    url_count := []
    last_url_usage := [] }

/-! ### Helper lemmas -/

lemma set_getD_self : ∀ (l : List Nat) (i : Nat), l.set i (l.getD i 0) = l
  | [], _ => by simp
  | _ :: _, 0 => by simp
  | a :: rest, i + 1 => by
    show a :: rest.set i (rest.getD i 0) = a :: rest
    rw [set_getD_self rest i]

lemma foldl_set_getD : ∀ (is2 : List Nat) (g : List Nat),
    is2.foldl (fun acc i => acc.set i (py_int (acc.getD i 0))) g = g
  | [], _ => rfl
  | i :: rest, g => by
    rw [List.foldl_cons]
    rw [show g.set i (py_int (g.getD i 0)) = g from set_getD_self g i]
    exact foldl_set_getD rest g

lemma matchUrlAt_take4 {cs : List Char} {r : List Char × List Char}
    (h : matchUrlAt cs = some r) : cs.take 4 = "http".data := by
  unfold matchUrlAt at h
  split_ifs at h with h8 h7
  · have h4 : (cs.take 8).take 4 = cs.take 4 := by
      rw [List.take_take]
      norm_num
    rw [← h4, h8]
    decide
  · have h4 : (cs.take 7).take 4 = cs.take 4 := by
      rw [List.take_take]
      norm_num
    rw [← h4, h7]
    decide

lemma findAllGo_eq_nil : ∀ (fuel : Nat) (cs : List Char),
    hasHttp cs = false → findAllGo fuel cs = [] := by
  intro fuel
  induction fuel with
  | zero => intro cs _; cases cs <;> rfl
  | succ n ih =>
    intro cs h
    cases cs with
    | nil => rfl
    | cons c rest =>
      have hh := h
      unfold hasHttp at hh
      rw [Bool.or_eq_false_iff] at hh
      obtain ⟨h1, h2⟩ := hh
      have hm : matchUrlAt (c :: rest) = none := by
        cases hmm : matchUrlAt (c :: rest) with
        | none => rfl
        | some r =>
          rw [matchUrlAt_take4 hmm] at h1
          simp at h1
      simp only [findAllGo, hm]
      exact ih rest h2

/-! ### Claim theorems -/

/-- C3: the "graph percentage calculation" block of `Main.save_page` leaves
every hourly-histogram bucket unchanged (the float quotient is computed and
discarded; `int()` of an `int` is the identity), so the rendered report and
the JSON file both receive the raw integer counts. -/
theorem c3_histogram_untouched (s : MainState) :
    save_page_graph s.activity_graph = s.activity_graph := by
  unfold save_page_graph
  exact foldl_set_getD _ _

/-- C5: the URL extractor on `"see http://a.b/c?x=1 and https://d.e"` returns
exactly those two URLs in order; on any body without the substring `"http"`
it returns the empty list; matching is purely lexical, left to right, and
duplicates within one body are each reported. -/
theorem c5_url_extractor :
    findAll "see http://a.b/c?x=1 and https://d.e".data =
      ["http://a.b/c?x=1".data, "https://d.e".data]
    ∧ (∀ body : List Char, hasHttp body = false → findAll body = [])
    ∧ findAll "dup http://a and http://a again".data =
        ["http://a".data, "http://a".data] := by
  refine ⟨by decide, ?_, by decide⟩
  intro body h
  exact findAllGo_eq_nil body.length body h

/-- C5 witness: a body with no `http` yields no URLs. -/
theorem c5_witness : findAll "no links in this message".data = [] :=
  c5_url_extractor.2.1 "no links in this message".data (by decide)

/-- C9: the bracket expression `[$-_@.&+]` of `URLS_PATTERN` is the ASCII
range `'$'`–`'_'`, so every character in that range (here `/ ? = : ; [ ] ^`,
digits, uppercase letters) can appear in an extracted URL. -/
theorem c9_bracket_is_range :
    (∀ c : Char, '$' ≤ c → c ≤ '_' → urlBodyChar c = true)
    ∧ findAll "x http://A0/?=:;[]^ y".data = ["http://A0/?=:;[]^".data] := by
  constructor
  · intro c h1 h2
    unfold urlBodyChar
    rw [decide_eq_true h1, decide_eq_true h2]
    simp
  · decide

/-- C9 witness: `'/'`, `'?'`, `'='`, `':'` and `';'` are all accepted by the
repetition group. -/
theorem c9_witness :
    urlBodyChar '/' = true ∧ urlBodyChar '?' = true ∧ urlBodyChar '=' = true
    ∧ urlBodyChar ':' = true ∧ urlBodyChar ';' = true :=
  ⟨c9_bracket_is_range.1 '/' (by decide) (by decide),
   c9_bracket_is_range.1 '?' (by decide) (by decide),
   c9_bracket_is_range.1 '=' (by decide) (by decide),
   c9_bracket_is_range.1 ':' (by decide) (by decide),
   c9_bracket_is_range.1 ';' (by decide) (by decide)⟩

/-- C8: a line shorter than 7 characters, or not led by an ASCII digit, is a
silent reject: `ChatMessage.parse` returns `None` (no exception) and
`Main.one_line` leaves the whole state unchanged. -/
theorem c8_short_or_nondigit_skipped (line : List Char)
    (h : line.length < 7 ∨ isAsciiDigit (line.headD ' ') = false) :
    ChatMessage.parse line = .ok none
    ∧ ∀ (s : MainState) (draw : Nat), s.one_line line draw = .ok s := by
  have hp : preCheckRejects line = true := by
    unfold preCheckRejects
    rcases h with h | h
    · rw [decide_eq_true h]
      rfl
    · rw [h]
      simp
  have hparse : ChatMessage.parse line = .ok none := by
    unfold ChatMessage.parse
    rw [if_pos hp]
  refine ⟨hparse, ?_⟩
  intro s draw
  simp only [MainState.one_line, hparse]

/-- C8 witness: the line `"abc"` (3 characters) is skipped without effect. -/
theorem c8_witness :
    ChatMessage.parse "abc".data = .ok none
    ∧ MainState.init.one_line "abc".data 0 = .ok MainState.init :=
  ⟨(c8_short_or_nondigit_skipped "abc".data (Or.inl (by decide))).1,
   (c8_short_or_nondigit_skipped "abc".data (Or.inl (by decide))).2 MainState.init 0⟩

/-- C4: a line that passes the length/digit check and the timestamp parse,
and whose second whitespace token starts with a character other than `*`,
`<` or `-`, makes `ChatMessage.parse` raise the fatal `RuntimeError`
("unknown discriminator") instead of being skipped. -/
theorem c4_unknown_discriminator_fatal (line t0 : List Char)
    (tail : List (List Char)) (tm : PyTime) (d : Char) (drest : List Char)
    (h1 : preCheckRejects line = false)
    (h2 : pySplitWS line = t0 :: tail)
    (h3 : pyTimeOfToken t0 = .ok tm)
    (h4 : tail.head? = some (d :: drest))
    (h5 : d ≠ '*' ∧ d ≠ '<' ∧ d ≠ '-') :
    ChatMessage.parse line = .error .runtimeError := by
  obtain ⟨tail2, rfl⟩ : ∃ tail2, tail = (d :: drest) :: tail2 := by
    cases tail with
    | nil => simp at h4
    | cons a t2 =>
      simp only [List.head?, Option.some.injEq] at h4
      exact ⟨t2, by rw [h4]⟩
  have hne : ¬ preCheckRejects line = true := by simp [h1]
  simp [ChatMessage.parse, if_neg hne, h2, h3, h5.1, h5.2.1, h5.2.2]

/-- C4 witness: `"10:00:00 ! x"` has discriminator `'!'` and aborts. -/
theorem c4_witness :
    ChatMessage.parse "10:00:00 ! x".data = .error .runtimeError :=
  c4_unknown_discriminator_fatal "10:00:00 ! x".data "10:00:00".data
    [['!'], ['x']] ⟨10, 0, 0, 0⟩ '!' [] (by decide) (by decide) (by decide)
    (by decide) (by decide)

/-- C7: a mode-change event only bumps that author's `user_givemodes`
counter; the record-update form of the conclusion keeps every other field of
the state (histogram, message/question/exclamation/action counters, URL
counters, last-used-by map, reservoir sampler) exactly as it was. -/
theorem c7_mode_change_only_givemodes (s : MainState) (line : List Char)
    (draw : Nat) (m : ChatMessage)
    (h1 : ChatMessage.parse line = .ok (some m))
    (h2 : m.line_type = MessageType.MODE_CHANGE) :
    s.one_line line draw =
      .ok { s with user_givemodes := cBump s.user_givemodes m.username } := by
  simp only [MainState.one_line, h1, h2, if_pos]

/-- C7 witness: the sample mode-change line on the initial state. -/
theorem c7_witness :
    MainState.init.one_line "11:00:00 -!- mode/#c [+o nick2] by Bot".data 0 =
      .ok { MainState.init with
        user_givemodes :=
          cBump MainState.init.user_givemodes
            (ChatMessage.mk ⟨11, 0, 0, 0⟩ "nick2".data [] MessageType.MODE_CHANGE).username } :=
  c7_mode_change_only_givemodes MainState.init
    "11:00:00 -!- mode/#c [+o nick2] by Bot".data 0
    ⟨⟨11, 0, 0, 0⟩, "nick2".data, [], MessageType.MODE_CHANGE⟩ (by decide) rfl

/-- C1 counterexample: on the scenario's exact three lines the code gives
nick1 a message count of 1, not 2 — `"10:00:01 <nick1> hello? world!"` has no
space after `<`, so `contents[2]` (the author position) is `"hello?"`, not
`"nick1>"`. -/
theorem c1_counterexample :
    (MainState.init.runLines (c1Lines 0 0 0)).map
        (fun s => cGet s.user_messages "nick1".data) = .ok 1
    ∧ (MainState.init.runLines (c1Lines 0 0 0)).map
        (fun s => cGet s.user_messages "nick1".data) ≠ .ok 2 := by
  refine ⟨by decide, by decide⟩

/-- C1 amended: feeding the Aggregator the scenario's three lines yields (for
every draw outcome): author `"hello?"` message count 1 and exclamation count
1, nick1 message count 1 and action count 1, zero question/exclamation
counts for nick1 and zero question count for `"hello?"`, nick2 mode-change
count 1, histogram bucket 10 = 2 and bucket 11 = 0, and an empty URL
counter (hence an empty top-URL list). -/
theorem c1_amended (d1 d2 d3 : Nat) :
    (MainState.init.runLines (c1Lines d1 d2 d3)).map
        (fun s => cGet s.user_messages "nick1".data) = .ok 1
    ∧ (MainState.init.runLines (c1Lines d1 d2 d3)).map
        (fun s => cGet s.user_messages "hello?".data) = .ok 1
    ∧ (MainState.init.runLines (c1Lines d1 d2 d3)).map
        (fun s => cGet s.user_question "nick1".data) = .ok 0
    ∧ (MainState.init.runLines (c1Lines d1 d2 d3)).map
        (fun s => cGet s.user_question "hello?".data) = .ok 0
    ∧ (MainState.init.runLines (c1Lines d1 d2 d3)).map
        (fun s => cGet s.user_exclamation "hello?".data) = .ok 1
    ∧ (MainState.init.runLines (c1Lines d1 d2 d3)).map
        (fun s => cGet s.user_exclamation "nick1".data) = .ok 0
    ∧ (MainState.init.runLines (c1Lines d1 d2 d3)).map
        (fun s => cGet s.user_actions "nick1".data) = .ok 1
    ∧ (MainState.init.runLines (c1Lines d1 d2 d3)).map
        (fun s => cGet s.user_givemodes "nick2".data) = .ok 1
    ∧ (MainState.init.runLines (c1Lines d1 d2 d3)).map
        (fun s => s.activity_graph.getD 10 0) = .ok 2
    ∧ (MainState.init.runLines (c1Lines d1 d2 d3)).map
        (fun s => s.activity_graph.getD 11 0) = .ok 0
    ∧ (MainState.init.runLines (c1Lines d1 d2 d3)).map
        (fun s => s.url_count) = .ok [] :=
  ⟨rfl, rfl, rfl, rfl, rfl, rfl, rfl, rfl, rfl, rfl, rfl⟩

lemma dGet?_dSet_self {α β : Type} [DecidableEq α] :
    ∀ (l : List (α × β)) (k : α) (v : β), dGet? (dSet l k v) k = some v
  | [], k, v => by simp [dSet, dGet?]
  | (a, b) :: rest, k, v => by
    by_cases ha : a = k
    · simp [dSet, dGet?, ha]
    · simp only [dSet, if_neg ha, dGet?]
      exact dGet?_dSet_self rest k v

lemma dGet?_dSet_ne {α β : Type} [DecidableEq α] :
    ∀ (l : List (α × β)) (kt k : α) (v : β), kt ≠ k →
      dGet? (dSet l kt v) k = dGet? l k
  | [], kt, k, v, h => by simp [dSet, dGet?, h]
  | (a, b) :: rest, kt, k, v, h => by
    by_cases ha : a = kt
    · subst ha
      simp only [dSet, if_pos rfl, dGet?]
      rw [if_neg h, if_neg h]
    · simp only [dSet, if_neg ha, dGet?]
      by_cases hk : a = k
      · simp [hk]
      · rw [if_neg hk, if_neg hk]
        exact dGet?_dSet_ne rest kt k v h

lemma consider_get_ne (st : ReservoirSampler) (kt k v : List Char) (d : Nat)
    (h : kt ≠ k) : (st.consider kt v d).get k = st.get k := by
  unfold ReservoirSampler.consider ReservoirSampler.get
  cases hs : dGet? st.storage kt with
  | none => exact dGet?_dSet_ne st.storage kt k v h
  | some w =>
    by_cases hd : d = 1
    · simp only [if_pos hd]
      exact dGet?_dSet_ne st.storage kt k v h
    · simp only [if_neg hd]

lemma consider_get_self (st : ReservoirSampler) (k v : List Char) (d : Nat) :
    (st.consider k v d).get k = some v ∨ (st.consider k v d).get k = st.get k := by
  unfold ReservoirSampler.consider ReservoirSampler.get
  cases hs : dGet? st.storage k with
  | none => exact Or.inl (dGet?_dSet_self st.storage k v)
  | some w =>
    by_cases hd : d = 1
    · simp only [if_pos hd]
      exact Or.inl (dGet?_dSet_self st.storage k v)
    · simp only [if_neg hd]
      exact Or.inr hs

lemma consider_get_self_of_none (st : ReservoirSampler) (k v : List Char)
    (d : Nat) (h : st.get k = none) : (st.consider k v d).get k = some v := by
  unfold ReservoirSampler.consider ReservoirSampler.get
  unfold ReservoirSampler.get at h
  rw [h]
  exact dGet?_dSet_self st.storage k v

lemma consideredValues_cons (k k2 v2 : List Char) (d2 : Nat)
    (rest : List (List Char × List Char × Nat)) :
    consideredValues k ((k2, v2, d2) :: rest) =
      if k2 = k then v2 :: consideredValues k rest else consideredValues k rest := by
  by_cases h : k2 = k <;> simp [consideredValues, List.filter, h]

lemma runConsiders_get (k : List Char) :
    ∀ (ops : List (List Char × List Char × Nat)) (st : ReservoirSampler),
      (consideredValues k ops = [] → (runConsiders st ops).get k = st.get k)
      ∧ ((runConsiders st ops).get k = st.get k ∨
          ∃ v ∈ consideredValues k ops, (runConsiders st ops).get k = some v)
      ∧ (st.get k = none → consideredValues k ops ≠ [] →
          ∃ v ∈ consideredValues k ops, (runConsiders st ops).get k = some v)
  | [], st => ⟨fun _ => rfl, Or.inl rfl, fun _ hne => absurd rfl hne⟩
  | (k2, v2, d2) :: rest, st => by
    obtain ⟨ih1, ih2, ih3⟩ := runConsiders_get k rest (st.consider k2 v2 d2)
    have hrun : runConsiders st ((k2, v2, d2) :: rest) =
        runConsiders (st.consider k2 v2 d2) rest := rfl
    by_cases hk : k2 = k
    · subst hk
      have hcv : consideredValues k2 ((k2, v2, d2) :: rest) =
          v2 :: consideredValues k2 rest := by
        rw [consideredValues_cons, if_pos rfl]
      refine ⟨?_, ?_, ?_⟩
      · intro hnil
        rw [hcv] at hnil
        exact absurd hnil (by simp)
      · rw [hrun, hcv]
        rcases ih2 with heq | ⟨v, hv, hres⟩
        · rcases consider_get_self st k2 v2 d2 with hself | hkeep
          · exact Or.inr ⟨v2, by simp, by rw [heq, hself]⟩
          · exact Or.inl (by rw [heq, hkeep])
        · exact Or.inr ⟨v, by simp [hv], hres⟩
      · intro hnone _
        rw [hrun, hcv]
        have hafter : (st.consider k2 v2 d2).get k2 = some v2 :=
          consider_get_self_of_none st k2 v2 d2 hnone
        rcases ih2 with heq | ⟨v, hv, hres⟩
        · exact ⟨v2, by simp, by rw [heq, hafter]⟩
        · exact ⟨v, by simp [hv], hres⟩
    · have hcv : consideredValues k ((k2, v2, d2) :: rest) =
          consideredValues k rest := by
        rw [consideredValues_cons, if_neg hk]
      have hgne : (st.consider k2 v2 d2).get k = st.get k :=
        consider_get_ne st k2 k v2 d2 hk
      refine ⟨?_, ?_, ?_⟩
      · intro hnil
        rw [hcv] at hnil
        rw [hrun, ih1 hnil, hgne]
      · rw [hrun, hcv]
        rcases ih2 with heq | ⟨v, hv, hres⟩
        · exact Or.inl (by rw [heq, hgne])
        · exact Or.inr ⟨v, hv, hres⟩
      · intro hnone hne
        rw [hcv] at hne
        rw [hrun, hcv]
        exact ih3 (by rw [hgne]; exact hnone) hne

/-- C6: keys never considered sample to `None`; a key considered exactly once
holds that value whatever the draws; and a key considered at least once holds
one of its observed values, for every possible outcome of the draws. -/
theorem c6_reservoir_sampler (ops : List (List Char × List Char × Nat))
    (k : List Char) :
    (consideredValues k ops = [] → (runConsiders emptySampler ops).get k = none)
    ∧ (∀ v, consideredValues k ops = [v] →
        (runConsiders emptySampler ops).get k = some v)
    ∧ (consideredValues k ops ≠ [] →
        ∃ v ∈ consideredValues k ops, (runConsiders emptySampler ops).get k = some v) := by
  obtain ⟨m1, m2, m3⟩ := runConsiders_get k ops emptySampler
  have hempty : emptySampler.get k = none := rfl
  refine ⟨fun h => by rw [m1 h, hempty], ?_, fun h => m3 hempty h⟩
  intro v hv
  obtain ⟨w, hw, hres⟩ := m3 hempty (by rw [hv]; simp)
  rw [hv] at hw
  simp only [List.mem_singleton] at hw
  rwa [hw] at hres

/-- C6 witness: after considering `("a", "x")` then `("b", "y")`, the sample
for `"a"` is `"x"`. -/
theorem c6_witness :
    (runConsiders emptySampler
      [("a".data, "x".data, 0), ("b".data, "y".data, 1)]).get "a".data =
      some "x".data :=
  (c6_reservoir_sampler [("a".data, "x".data, 0), ("b".data, "y".data, 1)]
    "a".data).2.1 "x".data (by decide)

lemma mapIntOpt_none_of_mem : ∀ {comps : List (List Char)} {c : List Char},
    c ∈ comps → pyInt? c = none → mapIntOpt comps = none := by
  intro comps
  induction comps with
  | nil => intro c hc _; simp at hc
  | cons a rest ih =>
    intro c hc hnone
    rcases List.mem_cons.mp hc with rfl | hmem
    · simp [mapIntOpt, hnone]
    · unfold mapIntOpt
      cases pyInt? a with
      | none => rfl
      | some v => rw [ih hmem hnone]

lemma mkTime_isOk_ranges {h m s us : Int}
    (hok : exceptIsOk (mkTime h m s us) = true) :
    (0 ≤ h ∧ h ≤ 23) ∧ (0 ≤ m ∧ m ≤ 59) ∧ (0 ≤ s ∧ s ≤ 59) := by
  unfold mkTime at hok
  split_ifs at hok with h1 h2 h3 h4
  · exact ⟨h1, h2, h3⟩
  all_goals simp [exceptIsOk] at hok

lemma pyTimeCtor_bad (vals : List Int)
    (hbad : (∃ h, vals.get? 0 = some h ∧ ¬(0 ≤ h ∧ h ≤ 23)) ∨
            (∃ m, vals.get? 1 = some m ∧ ¬(0 ≤ m ∧ m ≤ 59)) ∨
            (∃ s, vals.get? 2 = some s ∧ ¬(0 ≤ s ∧ s ≤ 59))) :
    exceptIsOk (pyTimeCtor vals) = false := by
  cases hE : exceptIsOk (pyTimeCtor vals) with
  | false => rfl
  | true =>
    exfalso
    match vals, hE with
    | [], hE =>
      rcases hbad with ⟨h, hh, _⟩ | ⟨m, hm, _⟩ | ⟨s, hs, _⟩
      · simp at hh
      · simp at hm
      · simp at hs
    | [a], hE =>
      obtain ⟨r1, _, _⟩ := mkTime_isOk_ranges hE
      rcases hbad with ⟨h, hh, hn⟩ | ⟨m, hm, _⟩ | ⟨s, hs, _⟩
      · obtain rfl : a = h := by simpa using hh
        exact hn r1
      · simp at hm
      · simp at hs
    | [a, b], hE =>
      obtain ⟨r1, r2, _⟩ := mkTime_isOk_ranges hE
      rcases hbad with ⟨h, hh, hn⟩ | ⟨m, hm, hn⟩ | ⟨s, hs, _⟩
      · obtain rfl : a = h := by simpa using hh
        exact hn r1
      · obtain rfl : b = m := by simpa using hm
        exact hn r2
      · simp at hs
    | [a, b, c], hE =>
      obtain ⟨r1, r2, r3⟩ := mkTime_isOk_ranges hE
      rcases hbad with ⟨h, hh, hn⟩ | ⟨m, hm, hn⟩ | ⟨s, hs, hn⟩
      · obtain rfl : a = h := by simpa using hh
        exact hn r1
      · obtain rfl : b = m := by simpa using hm
        exact hn r2
      · obtain rfl : c = s := by simpa using hs
        exact hn r3
    | [a, b, c, e], hE =>
      obtain ⟨r1, r2, r3⟩ := mkTime_isOk_ranges hE
      rcases hbad with ⟨h, hh, hn⟩ | ⟨m, hm, hn⟩ | ⟨s, hs, hn⟩
      · obtain rfl : a = h := by simpa using hh
        exact hn r1
      · obtain rfl : b = m := by simpa using hm
        exact hn r2
      · obtain rfl : c = s := by simpa using hs
        exact hn r3
    | a :: b :: c :: e :: f :: rest, hE =>
      exact absurd hE (by simp [pyTimeCtor, exceptIsOk])

/-- C2 counterexample: on `"99:00:01 <a> hi"` (hour 99 out of range) the
Classifier does not reject-and-continue — `Main.one_line` propagates an
uncaught `ValueError`, aborting the run. -/
theorem c2_counterexample :
    MainState.init.one_line "99:00:01 <a> hi".data 0 = .error .valueError
    ∧ ChatMessage.parse "99:00:01 <a> hi".data ≠ .ok none := by
  refine ⟨by decide, by decide⟩

/-- C2 amended: for a line that passes the length/leading-digit check, a
first token whose colon-separated components are non-numeric or out of range
(hour 0–23, minute/second 0–59) makes `ChatMessage.parse` raise an uncaught
exception — a fatal error that aborts the run — rather than treating the
line as a logged reject. -/
theorem c2_bad_timestamp_fatal (line t0 : List Char)
    (h1 : preCheckRejects line = false)
    (h2 : (pySplitWS line).head? = some t0)
    (h3 : timestampTokenBad t0) :
    exceptIsOk (ChatMessage.parse line) = false := by
  obtain ⟨tail, hsplit⟩ : ∃ tail, pySplitWS line = t0 :: tail := by
    cases hs : pySplitWS line with
    | nil => rw [hs] at h2; simp at h2
    | cons a t =>
      rw [hs] at h2
      simp only [List.head?, Option.some.injEq] at h2
      exact ⟨t, by rw [h2]⟩
  have htime : exceptIsOk (pyTimeOfToken t0) = false := by
    rcases h3 with ⟨c, hc, hnone⟩ | ⟨vals, hmap, hbad⟩
    · unfold pyTimeOfToken
      rw [mapIntOpt_none_of_mem hc hnone]
      rfl
    · unfold pyTimeOfToken
      rw [hmap]
      exact pyTimeCtor_bad vals hbad
  obtain ⟨e, he⟩ : ∃ e, pyTimeOfToken t0 = .error e := by
    cases ht : pyTimeOfToken t0 with
    | ok v => rw [ht] at htime; simp [exceptIsOk] at htime
    | error e2 => exact ⟨e2, rfl⟩
  have hne : ¬ preCheckRejects line = true := by simp [h1]
  simp [ChatMessage.parse, if_neg hne, hsplit, he, exceptIsOk]

/-- C2 amended witness: `"99:00:01 <a> hi"` raises (hour 99 > 23). -/
theorem c2_amended_witness :
    exceptIsOk (ChatMessage.parse "99:00:01 <a> hi".data) = false :=
  c2_bad_timestamp_fatal "99:00:01 <a> hi".data "99:00:01".data (by decide)
    (by decide)
    (Or.inr ⟨[99, 0, 1], by decide, Or.inl ⟨99, by decide, by decide⟩⟩)

lemma mem_dSet {α β : Type} [DecidableEq α] :
    ∀ {l : List (α × β)} {k : α} {v : β} {kn : α × β},
      kn ∈ dSet l k v → kn = (k, v) ∨ kn ∈ l := by
  intro l
  induction l with
  | nil =>
    intro k v kn h
    simp only [dSet, List.mem_singleton] at h
    exact Or.inl h
  | cons p rest ih =>
    intro k v kn h
    obtain ⟨a, b⟩ := p
    unfold dSet at h
    split_ifs at h with ha
    · rcases List.mem_cons.mp h with rfl | h2
      · exact Or.inl (by rw [ha])
      · exact Or.inr (List.mem_cons_of_mem _ h2)
    · rcases List.mem_cons.mp h with rfl | h2
      · exact Or.inr (List.mem_cons_self _ _)
      · rcases ih h2 with h3 | h3
        · exact Or.inl h3
        · exact Or.inr (List.mem_cons_of_mem _ h3)

lemma consider_get_isSome_self (st : ReservoirSampler) (k v : List Char)
    (d : Nat) : ((st.consider k v d).get k).isSome = true := by
  unfold ReservoirSampler.consider ReservoirSampler.get
  cases hs : dGet? st.storage k with
  | none => rw [dGet?_dSet_self]; rfl
  | some w =>
    by_cases hd : d = 1
    · simp only [if_pos hd]
      rw [dGet?_dSet_self]
      rfl
    · simp only [if_neg hd]
      rw [hs]
      rfl

lemma consider_get_isSome_mono (st : ReservoirSampler) (k v k2 : List Char)
    (d : Nat) (h : (st.get k2).isSome = true) :
    ((st.consider k v d).get k2).isSome = true := by
  by_cases hk : k = k2
  · subst hk
    exact consider_get_isSome_self st k v d
  · rw [consider_get_ne st k k2 v d hk]
    exact h

lemma urlFold_user_messages (u : List Char) :
    ∀ (urls : List (List Char)) (st : MainState),
      (urls.foldl (urlStep u) st).user_messages = st.user_messages
  | [], _ => rfl
  | url :: rest, st => by
    rw [List.foldl_cons, urlFold_user_messages u rest (urlStep u st url)]
    rfl

lemma urlFold_cache (u : List Char) :
    ∀ (urls : List (List Char)) (st : MainState),
      (urls.foldl (urlStep u) st).cache_user_messages = st.cache_user_messages
  | [], _ => rfl
  | url :: rest, st => by
    rw [List.foldl_cons, urlFold_cache u rest (urlStep u st url)]
    rfl

lemma processMessage_user_messages (s : MainState) (m : ChatMessage)
    (draw : Nat) :
    (processMessage s m draw).user_messages = cBump s.user_messages m.username := by
  unfold processMessage
  split_ifs <;> simp [urlFold_user_messages]

lemma processMessage_cache (s : MainState) (m : ChatMessage) (draw : Nat) :
    (processMessage s m draw).cache_user_messages =
      s.cache_user_messages.consider m.username m.text draw := by
  unfold processMessage
  split_ifs <;> simp [urlFold_cache]

lemma one_line_preserves_cover {s s2 : MainState} {line : List Char}
    {draw : Nat} (hrun : s.one_line line draw = .ok s2)
    (hinv : samplerCoversMessages s) : samplerCoversMessages s2 := by
  unfold MainState.one_line at hrun
  cases hp : ChatMessage.parse line with
  | error e => rw [hp] at hrun; exact absurd hrun (by simp)
  | ok om =>
    rw [hp] at hrun
    cases om with
    | none =>
      obtain rfl : s = s2 := by simpa using hrun
      exact hinv
    | some m =>
      have hrun2 :
          (if m.line_type = MessageType.MODE_CHANGE then
              Except.ok { s with user_givemodes := cBump s.user_givemodes m.username }
            else if m.line_type = MessageType.REGULAR ∨ m.line_type = MessageType.ACTION then
              Except.ok (processMessage s m draw)
            else Except.ok s) = Except.ok s2 := hrun
      split_ifs at hrun2 with hmode hreg
      · obtain rfl := Except.ok.inj hrun2
        intro kn hkn
        exact hinv kn hkn
      · obtain rfl := Except.ok.inj hrun2
        intro kn hkn
        rw [processMessage_user_messages] at hkn
        rw [processMessage_cache]
        unfold cBump at hkn
        rcases mem_dSet hkn with h3 | h3
        · rw [h3]
          exact consider_get_isSome_self _ _ _ _
        · exact consider_get_isSome_mono _ _ _ _ _ (hinv kn h3)
      · obtain rfl := Except.ok.inj hrun2
        exact hinv

lemma runLines_preserves_cover :
    ∀ (inputs : List (List Char × Nat)) (s s2 : MainState),
      s.runLines inputs = .ok s2 → samplerCoversMessages s →
        samplerCoversMessages s2
  | [], s, s2, hrun, hinv => by
    obtain rfl : s = s2 := by simpa [MainState.runLines] using hrun
    exact hinv
  | (line, d) :: rest, s, s2, hrun, hinv => by
    unfold MainState.runLines at hrun
    cases ho : s.one_line line d with
    | error e => rw [ho] at hrun; exact absurd hrun (by simp)
    | ok smid =>
      rw [ho] at hrun
      exact runLines_preserves_cover rest smid s2 hrun
        (one_line_preserves_cover ho hinv)

lemma mem_insertByCountDesc {x y : List Char × Nat} :
    ∀ {l : List (List Char × Nat)},
      y ∈ insertByCountDesc x l → y = x ∨ y ∈ l := by
  intro l
  induction l with
  | nil =>
    intro h
    simp only [insertByCountDesc, List.mem_singleton] at h
    exact Or.inl h
  | cons z rest ih =>
    intro h
    unfold insertByCountDesc at h
    split_ifs at h with hc
    · rcases List.mem_cons.mp h with rfl | h2
      · exact Or.inr (List.mem_cons_self _ _)
      · rcases ih h2 with h3 | h3
        · exact Or.inl h3
        · exact Or.inr (List.mem_cons_of_mem _ h3)
    · rcases List.mem_cons.mp h with rfl | h2
      · exact Or.inl rfl
      · exact Or.inr h2

lemma mem_mostCommon_aux :
    ∀ (c acc : List (List Char × Nat)) (y : List Char × Nat),
      y ∈ c.foldl (fun acc2 x => insertByCountDesc x acc2) acc →
        y ∈ acc ∨ y ∈ c
  | [], _, _, h => Or.inl h
  | x :: rest, acc, y, h => by
    rw [List.foldl_cons] at h
    rcases mem_mostCommon_aux rest _ y h with h2 | h2
    · rcases mem_insertByCountDesc h2 with h3 | h3
      · exact Or.inr (by rw [h3]; exact List.mem_cons_self _ _)
      · exact Or.inl h3
    · exact Or.inr (List.mem_cons_of_mem _ h2)

lemma mem_mostCommon {c : List (List Char × Nat)} {y : List Char × Nat}
    (h : y ∈ mostCommon c) : y ∈ c := by
  rcases mem_mostCommon_aux c [] y h with h2 | h2
  · simp at h2
  · exact h2

/-- C10: after any successful run from the initial state, every author in the
top-25 most-active list has been fed to the reservoir sampler at least once,
so `get` returns a present sample (and `html.escape` in `Main.save_page`
never receives `None`). -/
theorem c10_top25_quotes_present (inputs : List (List Char × Nat))
    (s : MainState) (hrun : MainState.init.runLines inputs = .ok s)
    (kn : List Char × Nat) (hkn : kn ∈ top25 s) :
    (s.cache_user_messages.get kn.1).isSome = true := by
  have hinv : samplerCoversMessages s :=
    runLines_preserves_cover inputs MainState.init s hrun
      (by intro kn2 hkn2; simp [MainState.init] at hkn2)
  unfold top25 at hkn
  have h1 : kn ∈ usersMessagesDesc s := List.take_subset 25 _ hkn
  exact hinv kn (mem_mostCommon h1)

/-- C10 witness: on the run of `"10:00:01 * nick1 hi"`, the one top-25
author's quote is present. -/
theorem c10_witness :
    (c10State.cache_user_messages.get "nick1".data).isSome = true :=
  c10_top25_quotes_present [("10:00:01 * nick1 hi".data, 0)] c10State
    (by decide) ("nick1".data, 1) (by decide)
